import Mathlib

/-!
Shallow embedding of the p25rx receive core (src/recv.rs and src/audio.rs).

The Receive Orchestrator (`RecvTask` in recv.rs) owns the control/current
frequency, the current talkgroup, the channel-parameter map and the
encrypted-talkgroup set; it dispatches decoded protocol events, retunes,
and forwards voice events to the Audio Render Pipeline (`AudioTask` in
audio.rs).  External collaborators (the p25 protocol crate's parsers, the
imbe voice decoder, the channels and sinks) are modelled abstractly by the
data they deliver, per the system's external-interface contracts; all
outbound sends are recorded as an ordered trace of output events.
-/

namespace P25rx

/-- TalkGroup (external p25 crate contract): default/unset or a numeric id.
Only these two shapes are distinguished by recv.rs. -/
inductive TalkGroup where
  | Default : TalkGroup
  | Other (x : Nat) : TalkGroup
  deriving DecidableEq, Repr

/-- Channel (external p25 crate contract): opaque (channel-id, slot-number)
pair, accessed via id() and number(). -/
structure Channel where
  id : Nat
  number : Nat
  deriving DecidableEq, Repr

/-- Frequency-plan record for one channel id: resolves a slot number to an
absolute receive frequency (p25 crate's ChannelParams::rx_freq). -/
def ChannelParams : Type := Nat → Nat

/-- ChannelParamsMap (external p25 crate contract): channel-id to
frequency-plan record; absent entries are unresolvable. -/
def ChannelParamsMap : Type := Nat → Option ChannelParams

/-- A decoded channel-parameter update record (p25 crate's
fields::ChannelParamsUpdate): the channel id it names and its parameters. -/
structure ChannelParamsUpdate where
  id : Nat
  params : ChannelParams

/-- Merging one channel-parameter update into the map (p25 crate's
ChannelParamsMap::update): the named id gets the new parameters. -/
def ChannelParamsMap.update (m : ChannelParamsMap) (dec : ChannelParamsUpdate) :
    ChannelParamsMap :=
  fun i => if i = dec.id then some dec.params else m i

/-- Crypto algorithm field (p25 crate's CryptoAlgorithm): recv.rs only
distinguishes Unencrypted from everything else. -/
inductive CryptoAlgorithm where
  | Unencrypted : CryptoAlgorithm
  | Other (n : Nat) : CryptoAlgorithm
  deriving DecidableEq, Repr

/-- NID data units (p25 crate's DataUnit): recv.rs only distinguishes the
two voice terminators from everything else. -/
inductive DataUnit where
  | VoiceLCTerminator : DataUnit
  | VoiceSimpleTerminator : DataUnit
  | Other (n : Nat) : DataUnit
  deriving DecidableEq, Repr

/-- A packet NID record: recv.rs reads only its data_unit field. -/
structure NID where
  data_unit : DataUnit
  deriving DecidableEq, Repr

/-- A link-control record: recv.rs reads only its opcode (None when the raw
opcode value is unrecognized) and forwards the record verbatim. -/
structure LinkControlRec where
  opcode : Option Nat
  deriving DecidableEq, Repr

/-- Trunking-control opcodes (p25 crate's TsbkOpcode): recv.rs dispatches on
GroupVoiceUpdate and ChannelParamsUpdate; other recognized codes fall to the
catch-all arm. -/
inductive TsbkOpcode where
  | GroupVoiceUpdate : TsbkOpcode
  | ChannelParamsUpdate : TsbkOpcode
  | Other (n : Nat) : TsbkOpcode
  deriving DecidableEq, Repr

/-- A trunking-control (TSBK) record, carrying the fields recv.rs reads:
mfg() (manufacturer, 0 = standard), crc_valid() (integrity check),
opcode() (None when unrecognized), and the two payload parses that the
p25 crate performs on demand — GroupTrafficUpdate::new(payload).updates()
and fields::ChannelParamsUpdate::new(payload). -/
structure Tsbk where
  mfg : Nat
  crc_valid : Bool
  opcode : Option TsbkOpcode
  updates : List (Channel × TalkGroup)
  cparams : ChannelParamsUpdate

/-- A voice frame (p25 crate's VoiceFrame): coded chunks and per-chunk
error counts; opaque to recv.rs, consumed by the audio pipeline. -/
structure VoiceFrame where
  chunks : List Nat
  errors : List Nat
  deriving DecidableEq, Repr

/-- Events on the Audio Render Pipeline's queue (audio.rs AudioEvent). -/
inductive AudioEvent where
  | VoiceFrame (vf : VoiceFrame) : AudioEvent
  | EndTransmission : AudioEvent

/-- Reports sent to the hub / Control-Reporting Sink (hub.rs contract as
used by recv.rs). -/
inductive HubEvent where
  | UpdateCtlFreq (freq : Nat) : HubEvent
  | UpdateCurFreq (freq : Nat) : HubEvent
  | LinkControl (lc : LinkControlRec) : HubEvent
  | TrunkingControl (tsbk : Tsbk) : HubEvent
  | UpdateTalkGroup (tg : TalkGroup) : HubEvent
  | UpdateChannelParams (tsbk : Tsbk) : HubEvent

/-- One outbound effect of the orchestrator, in emission order: a hub
report, a tuner command to the sdr control task, an audio-pipeline event,
or a resynchronization of the message receiver's symbol timing. -/
inductive Out where
  | hub (e : HubEvent) : Out
  | sdrSetFreq (freq : Nat) : Out
  | audio (e : AudioEvent) : Out
  | resync : Out

/-- Decoded protocol events delivered by the external Decoded-Frame Service
(p25 crate's MessageEvent), carrying the fields recv.rs inspects. -/
inductive MessageEvent where
  | Error (e : Nat) : MessageEvent
  | PacketNID (nid : NID) : MessageEvent
  | VoiceHeader (alg : CryptoAlgorithm) : MessageEvent
  | LinkControl (lc : LinkControlRec) : MessageEvent
  | CryptoControl (alg : CryptoAlgorithm) : MessageEvent
  | LowSpeedDataFragment (d : Nat) : MessageEvent
  | VoiceFrame (vf : VoiceFrame) : MessageEvent
  | TrunkingControl (tsbk : Tsbk) : MessageEvent
  | VoiceTerm (t : Nat) : MessageEvent

/-- The Receive Orchestrator's owned state (RecvTask's fields, minus the
external receiver/queue handles whose effects are recorded in the trace). -/
structure RecvState where
  ctlfreq : Nat
  curfreq : Nat
  channels : ChannelParamsMap
  curgroup : TalkGroup
  encrypted : Finset Nat

/-- RecvTask::set_freq: set current frequency, report it, command the
tuner, resynchronize symbol timing. -/
def set_freq (s : RecvState) (freq : Nat) : RecvState × List Out :=
  ({ s with curfreq := freq },
   [Out.hub (HubEvent.UpdateCurFreq freq), Out.sdrSetFreq freq, Out.resync])

/-- RecvTask::switch_control: signal end of transmission to the audio
pipeline, then retune to the stored control-channel frequency. -/
def switch_control (s : RecvState) : RecvState × List Out :=
  let r := set_freq s s.ctlfreq
  (r.1, Out.audio AudioEvent.EndTransmission :: r.2)

/-- RecvTask::set_control_freq: store the new control frequency, report it,
and switch to control. -/
def set_control_freq (s : RecvState) (freq : Nat) : RecvState × List Out :=
  let s1 : RecvState := { s with ctlfreq := freq }
  let r := switch_control s1
  (r.1, Out.hub (HubEvent.UpdateCtlFreq freq) :: r.2)

namespace RecvTask

/-- The field initializers in RecvTask::new, before init runs. -/
def initState : RecvState :=
  { ctlfreq := 4294967295
    curfreq := 4294967295
    channels := fun _ => none
    curgroup := TalkGroup.Default
    encrypted := ∅ }

/-- RecvTask::new: initialize the fields, then (via init) perform
set_control_freq with the given frequency as the first action. -/
def new (freq : Nat) : RecvState × List Out :=
  set_control_freq initState freq

end RecvTask

/-- RecvTask::handle_crypto: unencrypted is a no-op; otherwise switch to
control and, if the current talkgroup is a numeric id, add it to the
encrypted set. -/
def handle_crypto (s : RecvState) (alg : CryptoAlgorithm) : RecvState × List Out :=
  match alg with
  | CryptoAlgorithm.Unencrypted => (s, [])
  | _ =>
    let r := switch_control s
    match r.1.curgroup with
    | TalkGroup.Other x => ({ r.1 with encrypted := insert x r.1.encrypted }, r.2)
    | _ => (r.1, r.2)

/-- Whether the talkgroup is a numeric id present in the encrypted set
(the guard at the top of RecvTask::use_talkgroup). -/
def TalkGroup.blacklisted (tg : TalkGroup) (enc : Finset Nat) : Bool :=
  match tg with
  | TalkGroup.Other x => decide (x ∈ enc)
  | TalkGroup.Default => false

/-- RecvTask::use_talkgroup: fail when the talkgroup is blacklisted or the
channel is unresolvable; otherwise set the current talkgroup, retune to
the resolved frequency, report the talkgroup, and succeed. -/
def use_talkgroup (s : RecvState) (tg : TalkGroup) (ch : Channel) :
    RecvState × List Out × Bool :=
  if tg.blacklisted s.encrypted then (s, [], false)
  else
    match s.channels ch.id with
    | none => (s, [], false)
    | some p =>
      let freq := p ch.number
      let s1 : RecvState := { s with curgroup := tg }
      let r := set_freq s1 freq
      (r.1, r.2 ++ [Out.hub (HubEvent.UpdateTalkGroup tg)], true)

/-- The loop over a group-voice-update's (channel, talkgroup) pairs in
RecvTask::handle_sample: try each pair in order, breaking at the first
success. -/
def use_talkgroups : RecvState → List (Channel × TalkGroup) → RecvState × List Out
  | s, [] => (s, [])
  | s, (ch, tg) :: rest =>
    let r := use_talkgroup s tg ch
    if r.2.2 then (r.1, r.2.1)
    else
      let r2 := use_talkgroups r.1 rest
      (r2.1, r.2.1 ++ r2.2)

/-- The event dispatch in RecvTask::handle_sample, given the decoded
protocol event produced by the message receiver. -/
def handle_event (s : RecvState) (event : MessageEvent) : RecvState × List Out :=
  match event with
  | MessageEvent.Error _ => (s, [])
  | MessageEvent.PacketNID nid =>
    match nid.data_unit with
    | DataUnit.VoiceLCTerminator => switch_control s
    | DataUnit.VoiceSimpleTerminator => switch_control s
    | _ => (s, [])
  | MessageEvent.VoiceHeader alg => handle_crypto s alg
  | MessageEvent.LinkControl lc =>
    match lc.opcode with
    | none => (s, [])
    | some _ => (s, [Out.hub (HubEvent.LinkControl lc)])
  | MessageEvent.CryptoControl alg => handle_crypto s alg
  | MessageEvent.LowSpeedDataFragment _ => (s, [])
  | MessageEvent.VoiceFrame vf => (s, [Out.audio (AudioEvent.VoiceFrame vf)])
  | MessageEvent.TrunkingControl tsbk =>
    if tsbk.mfg ≠ 0 then (s, [])
    else if !tsbk.crc_valid then (s, [])
    else
      match tsbk.opcode with
      | none => (s, [])
      | some opcode =>
        let fwd := [Out.hub (HubEvent.TrunkingControl tsbk)]
        match opcode with
        | TsbkOpcode.GroupVoiceUpdate =>
          let r := use_talkgroups s tsbk.updates
          (r.1, fwd ++ r.2)
        | TsbkOpcode.ChannelParamsUpdate =>
          ({ s with channels := s.channels.update tsbk.cparams },
           fwd ++ [Out.hub (HubEvent.UpdateChannelParams tsbk)])
        | TsbkOpcode.Other _ => (s, fwd)
  | MessageEvent.VoiceTerm _ => (s, [])

/-- RecvTask::handle_sample: feed one sample to the message receiver; the
receiver's answer (at most one decoded event) is the function's input
here, the receiver itself being external and stateful. -/
def handle_sample (s : RecvState) (decoded : Option MessageEvent) :
    RecvState × List Out :=
  match decoded with
  | none => (s, [])
  | some event => handle_event s event

/-- One baseband buffer: every sample's decoded event dispatched in order
(the Baseband arm of RecvTask::run). -/
def handle_samples : RecvState → List (Option MessageEvent) → RecvState × List Out
  | s, [] => (s, [])
  | s, d :: rest =>
    let r := handle_sample s d
    let r2 := handle_samples r.1 rest
    (r2.1, r.2 ++ r2.2)

/-- Inbound events of the orchestrator's queue (recv.rs RecvEvent), a
baseband buffer being represented by the decoded events its samples
produce. -/
inductive RecvEvent where
  | Baseband (samples : List (Option MessageEvent)) : RecvEvent
  | SetControlFreq (freq : Nat) : RecvEvent

/-- One iteration of RecvTask::run's receive loop. -/
def step (s : RecvState) : RecvEvent → RecvState × List Out
  | RecvEvent.Baseband samples => handle_samples s samples
  | RecvEvent.SetControlFreq freq => set_control_freq s freq

/-- RecvTask::run over a finite inbound sequence. -/
def run : RecvState → List RecvEvent → RecvState × List Out
  | s, [] => (s, [])
  | s, e :: rest =>
    let r := step s e
    let r2 := run r.1 rest
    (r2.1, r.2 ++ r2.2)

/-- An abstract model of the external imbe voice decoder (spec: an opaque
"decode one frame's coded bits into floating-point audio samples" service,
stateful across calls, reconstructible from scratch): a state type, the
state ImbeDecoder::new constructs, and the decode step, which consumes the
frame and yields the updated state and one block of samples (as rationals,
standing in for the floats whose arithmetic is outside this scope). -/
structure ImbeModel where
  Dec : Type
  init : Dec
  decode : Dec → VoiceFrame → Dec × List ℚ

/-- AudioOutput's state (audio.rs): the sink stream, recorded as the list
of sample blocks written to it in order plus how many of those blocks have
been flushed through, and the current decoder instance. -/
structure AudioOutput (M : ImbeModel) where
  written : List (List ℚ)
  flushed : Nat
  imbe : M.Dec

namespace AudioOutput

variable {M : ImbeModel}

/-- AudioOutput::new: a fresh decoder instance over an empty stream. -/
def new (M : ImbeModel) : AudioOutput M :=
  { written := [], flushed := 0, imbe := M.init }

/-- AudioOutput::play: decode the frame into one sample block, scale every
sample down by the fixed constant 8192, and write the block to the sink. -/
def play (a : AudioOutput M) (vf : VoiceFrame) : AudioOutput M :=
  let r := M.decode a.imbe vf
  { a with imbe := r.1, written := a.written ++ [r.2.map (fun q => q / 8192)] }

/-- AudioOutput::reset: discard the decoder instance and construct a fresh
one. -/
def reset (a : AudioOutput M) : AudioOutput M :=
  { a with imbe := M.init }

/-- AudioOutput::flush: push all written output through the sink. -/
def flush (a : AudioOutput M) : AudioOutput M :=
  { a with flushed := a.written.length }

end AudioOutput

namespace AudioTask

variable {M : ImbeModel}

/-- One iteration of AudioTask::run: play a voice frame, or flush then
reset on end of transmission. -/
def step (a : AudioOutput M) : AudioEvent → AudioOutput M
  | AudioEvent.VoiceFrame vf => a.play vf
  | AudioEvent.EndTransmission => a.flush.reset

/-- AudioTask::run over a finite inbound queue of audio events. -/
def run : AudioOutput M → List AudioEvent → AudioOutput M
  | a, [] => a
  | a, e :: rest => run (step a e) rest

end AudioTask

/-- Count of end-of-transmission events in an output trace. -/
def countEndTx (outs : List Out) : Nat :=
  outs.countP fun o =>
    match o with
    | Out.audio AudioEvent.EndTransmission => true
    | _ => false

/-- Count of all audio-pipeline (voice) events in an output trace. -/
def countAudioEvents (outs : List Out) : Nat :=
  outs.countP fun o =>
    match o with
    | Out.audio _ => true
    | _ => false

/-- Count of voice-frame events in an output trace. -/
def countVoiceFrames (outs : List Out) : Nat :=
  outs.countP fun o =>
    match o with
    | Out.audio (AudioEvent.VoiceFrame _) => true
    | _ => false

/-- A concrete channel-parameter map for witnesses: channel id 3 resolves,
all other ids are unresolvable. -/
def mapW : ChannelParamsMap :=
  fun i => if i = 3 then some (fun n => 851000000 + n) else none

/-- A concrete on-control orchestrator state for witnesses. -/
def stateW : RecvState :=
  { ctlfreq := 770000000
    curfreq := 770000000
    channels := mapW
    curgroup := TalkGroup.Default
    encrypted := ∅ }

/-- A concrete group-voice-update record with two pairs, both of which
would resolve, for witnesses. -/
def tsbkW : Tsbk :=
  { mfg := 0
    crc_valid := true
    opcode := some TsbkOpcode.GroupVoiceUpdate
    updates := [(⟨3, 1⟩, TalkGroup.Other 9), (⟨3, 2⟩, TalkGroup.Other 7)]
    cparams := ⟨0, fun _ => 0⟩ }

/-- A selection attempt that fails is a complete no-op: state unchanged,
nothing sent (both failure paths in use_talkgroup return early). -/
theorem use_talkgroup_fail_noop (s : RecvState) (tg : TalkGroup) (ch : Channel)
    (hf : (use_talkgroup s tg ch).2.2 = false) :
    use_talkgroup s tg ch = (s, [], false) := by
  by_cases hb : tg.blacklisted s.encrypted
  · simp [use_talkgroup, hb]
  · cases hch : s.channels ch.id with
    | none => simp [use_talkgroup, hb, hch]
    | some p => simp [use_talkgroup, hb, hch, set_freq] at hf

/-- A selection attempt that succeeds did pass both guards: the talkgroup
is not blacklisted, the channel resolves, and the resulting state carries
that talkgroup and the resolved frequency. -/
theorem use_talkgroup_success_spec (s : RecvState) (tg : TalkGroup) (ch : Channel)
    (hs : (use_talkgroup s tg ch).2.2 = true) :
    tg.blacklisted s.encrypted = false ∧
    ∃ p : ChannelParams, s.channels ch.id = some p ∧
      (use_talkgroup s tg ch).1.curgroup = tg ∧
      (use_talkgroup s tg ch).1.curfreq = p ch.number := by
  by_cases hb : tg.blacklisted s.encrypted
  · simp [use_talkgroup, hb] at hs
  · cases hch : s.channels ch.id with
    | none => simp [use_talkgroup, hb, hch] at hs
    | some p =>
      rw [Bool.not_eq_true] at hb
      exact ⟨hb, p, rfl, by simp [use_talkgroup, hb, hch, set_freq]⟩

/-- The first-match scan ignores a prefix of failing pairs: each of them
leaves the state as it was, so the scan continues from the same state. -/
theorem use_talkgroups_skip_failures (s : RecvState)
    (pre l : List (Channel × TalkGroup))
    (hpre : ∀ p ∈ pre, (use_talkgroup s p.2 p.1).2.2 = false) :
    use_talkgroups s (pre ++ l) = use_talkgroups s l := by
  induction pre with
  | nil => rfl
  | cons q pre ih =>
    obtain ⟨ch0, tg0⟩ := q
    have hq : (use_talkgroup s tg0 ch0).2.2 = false := hpre (ch0, tg0) (by simp)
    have ih2 := ih fun p hp => hpre p (List.mem_cons_of_mem _ hp)
    simp only [List.cons_append, use_talkgroups, use_talkgroup_fail_noop s tg0 ch0 hq]
    simp [ih2]

/-- When the head pair succeeds the scan stops there: its result is the
whole scan's result, whatever follows. -/
theorem use_talkgroups_head_success (s : RecvState) (ch : Channel)
    (tg : TalkGroup) (rest : List (Channel × TalkGroup))
    (hs : (use_talkgroup s tg ch).2.2 = true) :
    use_talkgroups s ((ch, tg) :: rest) =
      ((use_talkgroup s tg ch).1, (use_talkgroup s tg ch).2.1) := by
  simp only [use_talkgroups]
  simp [hs]

/-- Claim C1: for every group-voice-channel-update record, writing its pair
list as a prefix of pairs on which selection fails, the first pair on which
selection succeeds, and an arbitrary tail: the record's whole effect is the
forward to the sink plus exactly that succeeding pair's selection — the
current talkgroup becomes that pair's talkgroup and the current frequency
that pair's resolved frequency, and the result does not depend on the tail,
so no later pair is ever evaluated. -/
theorem groupVoiceUpdate_first_match (s : RecvState) (tsbk : Tsbk)
    (pre : List (Channel × TalkGroup)) (ch : Channel) (tg : TalkGroup)
    (rest : List (Channel × TalkGroup))
    (hm : tsbk.mfg = 0) (hc : tsbk.crc_valid = true)
    (ho : tsbk.opcode = some TsbkOpcode.GroupVoiceUpdate)
    (hu : tsbk.updates = pre ++ (ch, tg) :: rest)
    (hpre : ∀ p ∈ pre, (use_talkgroup s p.2 p.1).2.2 = false)
    (hs : (use_talkgroup s tg ch).2.2 = true) :
    handle_event s (MessageEvent.TrunkingControl tsbk) =
      ((use_talkgroup s tg ch).1,
       Out.hub (HubEvent.TrunkingControl tsbk) :: (use_talkgroup s tg ch).2.1) ∧
    TalkGroup.blacklisted tg s.encrypted = false ∧
    ∃ p : ChannelParams, s.channels ch.id = some p ∧
      (handle_event s (MessageEvent.TrunkingControl tsbk)).1.curgroup = tg ∧
      (handle_event s (MessageEvent.TrunkingControl tsbk)).1.curfreq = p ch.number := by
  have hev : handle_event s (MessageEvent.TrunkingControl tsbk) =
      ((use_talkgroups s tsbk.updates).1,
       Out.hub (HubEvent.TrunkingControl tsbk) :: (use_talkgroups s tsbk.updates).2) := by
    simp [handle_event, hm, hc, ho]
  rw [hu, use_talkgroups_skip_failures s pre _ hpre,
    use_talkgroups_head_success s ch tg rest hs] at hev
  obtain ⟨hb, p, hp, hg, hf⟩ := use_talkgroup_success_spec s tg ch hs
  exact ⟨hev, hb, p, hp, by rw [hev]; exact hg, by rw [hev]; exact hf⟩

/-- A concrete orchestrator state with talkgroup 7 blacklisted. -/
def stateF : RecvState :=
  { stateW with encrypted := {7} }

/-- A concrete group-voice-update record exercising fall-through: the
first pair names the blacklisted talkgroup 7, the second an unresolvable
channel id 5, the third succeeds, and a fourth resolvable pair follows. -/
def tsbkF : Tsbk :=
  { mfg := 0
    crc_valid := true
    opcode := some TsbkOpcode.GroupVoiceUpdate
    updates := [(⟨3, 1⟩, TalkGroup.Other 7), (⟨5, 2⟩, TalkGroup.Other 9),
                (⟨3, 4⟩, TalkGroup.Other 9), (⟨3, 9⟩, TalkGroup.Other 11)]
    cparams := ⟨0, fun _ => 0⟩ }

/-- Witness for C1: on the concrete record tsbkF in state stateF, selection
falls through the blacklisted and unresolvable pairs, stops at the third
pair — talkgroup 9, channel (3,4) — and ignores the fourth, resolvable
pair. -/
theorem groupVoiceUpdate_first_match_witness :
    handle_event stateF (MessageEvent.TrunkingControl tsbkF) =
      ((use_talkgroup stateF (TalkGroup.Other 9) ⟨3, 4⟩).1,
       Out.hub (HubEvent.TrunkingControl tsbkF) ::
         (use_talkgroup stateF (TalkGroup.Other 9) ⟨3, 4⟩).2.1) ∧
    TalkGroup.blacklisted (TalkGroup.Other 9) stateF.encrypted = false ∧
    ∃ p : ChannelParams, stateF.channels (3 : Nat) = some p ∧
      (handle_event stateF (MessageEvent.TrunkingControl tsbkF)).1.curgroup =
        TalkGroup.Other 9 ∧
      (handle_event stateF (MessageEvent.TrunkingControl tsbkF)).1.curfreq = p 4 :=
  groupVoiceUpdate_first_match stateF tsbkF
    [(⟨3, 1⟩, TalkGroup.Other 7), (⟨5, 2⟩, TalkGroup.Other 9)]
    ⟨3, 4⟩ (TalkGroup.Other 9) [(⟨3, 9⟩, TalkGroup.Other 11)]
    rfl rfl rfl rfl (by decide) (by decide)

/-- A concrete trunking record with standard manufacturer and valid
integrity check but an unrecognized operation code. -/
def tsbkN : Tsbk :=
  { mfg := 0
    crc_valid := true
    opcode := none
    updates := []
    cparams := ⟨0, fun _ => 0⟩ }

/-- A concrete vendor-specific trunking record (manufacturer 144). -/
def tsbkV : Tsbk :=
  { mfg := 144
    crc_valid := true
    opcode := some TsbkOpcode.GroupVoiceUpdate
    updates := []
    cparams := ⟨0, fun _ => 0⟩ }

/-- Counterexample to claim C2: the concrete record tsbkN passes both
stated gates (standard manufacturer, valid integrity check), yet it is
dropped with an empty output trace — it is never forwarded to the
Control/Reporting Sink, because its operation code is unrecognized. -/
theorem trunking_forward_counterexample :
    tsbkN.mfg = 0 ∧ tsbkN.crc_valid = true ∧
    handle_event stateW (MessageEvent.TrunkingControl tsbkN) = (stateW, []) :=
  ⟨rfl, rfl, rfl⟩

/-- Claim C2 (amended): a trunking-control record is dropped with no
report and no state change unless its manufacturer field is standard, its
integrity check passes, AND its operation code is recognized; every
record passing all three gates is forwarded to the Control/Reporting Sink
first — before any opcode-specific dispatch — whichever recognized
opcode it carries. -/
theorem trunking_record_gates (s : RecvState) (tsbk : Tsbk) :
    (tsbk.mfg ≠ 0 ∨ tsbk.crc_valid = false ∨ tsbk.opcode = none →
      handle_event s (MessageEvent.TrunkingControl tsbk) = (s, [])) ∧
    (∀ op : TsbkOpcode, tsbk.mfg = 0 → tsbk.crc_valid = true →
      tsbk.opcode = some op →
      ∃ rest : List Out,
        (handle_event s (MessageEvent.TrunkingControl tsbk)).2 =
          Out.hub (HubEvent.TrunkingControl tsbk) :: rest) := by
  constructor
  · intro h
    rcases h with h | h | h
    · simp [handle_event, h]
    · by_cases hm : tsbk.mfg = 0 <;> simp [handle_event, hm, h]
    · by_cases hm : tsbk.mfg = 0 <;>
        by_cases hc : tsbk.crc_valid <;>
          simp [handle_event, hm, hc, h]
  · intro op hm hc ho
    cases op with
    | GroupVoiceUpdate =>
      exact ⟨(use_talkgroups s tsbk.updates).2, by simp [handle_event, hm, hc, ho]⟩
    | ChannelParamsUpdate =>
      exact ⟨[Out.hub (HubEvent.UpdateChannelParams tsbk)],
        by simp [handle_event, hm, hc, ho]⟩
    | Other n =>
      exact ⟨[], by simp [handle_event, hm, hc, ho]⟩

/-- Witness for C2 (amended): the vendor-specific record tsbkV is dropped
silently, and the recognized record tsbkW is forwarded to the sink at the
head of its trace. -/
theorem trunking_record_gates_witness :
    handle_event stateW (MessageEvent.TrunkingControl tsbkV) = (stateW, []) ∧
    (∃ rest : List Out,
      (handle_event stateW (MessageEvent.TrunkingControl tsbkW)).2 =
        Out.hub (HubEvent.TrunkingControl tsbkW) :: rest) :=
  ⟨(trunking_record_gates stateW tsbkV).1 (Or.inl (by decide)),
   (trunking_record_gates stateW tsbkW).2 TsbkOpcode.GroupVoiceUpdate rfl rfl rfl⟩

/-- A concrete orchestrator state tuned to a traffic channel with a
numeric current talkgroup. -/
def stateT : RecvState :=
  { ctlfreq := 770000000
    curfreq := 851000001
    channels := mapW
    curgroup := TalkGroup.Other 9
    encrypted := ∅ }

/-- Claim C3: a voice-header or crypto-control event with a non-unencrypted
algorithm, seen while the current talkgroup is the numeric id x, adds x to
the encrypted set, sets the current frequency to the stored control-channel
frequency, and emits the end-of-transmission audio event before the
retune's frequency report, tuner command, and resynchronization; with the
unencrypted algorithm both events are no-ops. -/
theorem crypto_event_spec (s : RecvState) (alg : CryptoAlgorithm) (x : Nat)
    (hne : alg ≠ CryptoAlgorithm.Unencrypted)
    (hg : s.curgroup = TalkGroup.Other x) :
    handle_event s (MessageEvent.VoiceHeader alg) =
      ({ s with curfreq := s.ctlfreq, encrypted := insert x s.encrypted },
       [Out.audio AudioEvent.EndTransmission,
        Out.hub (HubEvent.UpdateCurFreq s.ctlfreq),
        Out.sdrSetFreq s.ctlfreq, Out.resync]) ∧
    handle_event s (MessageEvent.CryptoControl alg) =
      ({ s with curfreq := s.ctlfreq, encrypted := insert x s.encrypted },
       [Out.audio AudioEvent.EndTransmission,
        Out.hub (HubEvent.UpdateCurFreq s.ctlfreq),
        Out.sdrSetFreq s.ctlfreq, Out.resync]) ∧
    (∀ t : RecvState,
      handle_event t (MessageEvent.VoiceHeader CryptoAlgorithm.Unencrypted) = (t, []) ∧
      handle_event t (MessageEvent.CryptoControl CryptoAlgorithm.Unencrypted) = (t, [])) := by
  cases alg with
  | Unencrypted => exact absurd rfl hne
  | Other n =>
    refine ⟨?_, ?_, fun t => ⟨rfl, rfl⟩⟩ <;>
      simp [handle_event, handle_crypto, switch_control, set_freq, hg]

/-- Witness for C3: in the concrete traffic state stateT (current talkgroup
9), a crypto-control event with algorithm 129 blacklists 9 and retunes to
the control frequency 770000000, end-of-transmission first. -/
theorem crypto_event_spec_witness :
    handle_event stateT (MessageEvent.VoiceHeader (CryptoAlgorithm.Other 129)) =
      ({ stateT with curfreq := 770000000, encrypted := insert 9 stateT.encrypted },
       [Out.audio AudioEvent.EndTransmission,
        Out.hub (HubEvent.UpdateCurFreq 770000000),
        Out.sdrSetFreq 770000000, Out.resync]) ∧
    handle_event stateT (MessageEvent.CryptoControl (CryptoAlgorithm.Other 129)) =
      ({ stateT with curfreq := 770000000, encrypted := insert 9 stateT.encrypted },
       [Out.audio AudioEvent.EndTransmission,
        Out.hub (HubEvent.UpdateCurFreq 770000000),
        Out.sdrSetFreq 770000000, Out.resync]) ∧
    (∀ t : RecvState,
      handle_event t (MessageEvent.VoiceHeader CryptoAlgorithm.Unencrypted) = (t, []) ∧
      handle_event t (MessageEvent.CryptoControl CryptoAlgorithm.Unencrypted) = (t, [])) :=
  crypto_event_spec stateT (CryptoAlgorithm.Other 129) 9 (by decide) rfl

/-- Counterexample to claim C4: the voice-terminator record event — a
decoded protocol event indicating a voice-transmission terminator — is a
no-op in stateT: the current frequency stays on the traffic channel
instead of returning to the control-channel frequency, and zero (not
exactly one) end-of-transmission events are sent. -/
theorem voiceterm_counterexample :
    (handle_event stateT (MessageEvent.VoiceTerm 0)).1.curfreq ≠ stateT.ctlfreq ∧
    countEndTx (handle_event stateT (MessageEvent.VoiceTerm 0)).2 = 0 :=
  ⟨by decide, rfl⟩

/-- Claim C4 (amended): a frame-sync (NID) record whose data unit is a
voice LC terminator or voice simple terminator sets the current frequency
back to the stored control-channel frequency and sends exactly one
end-of-transmission event; the separately decoded voice-terminator record
event is ignored entirely (no state change, no output). -/
theorem terminator_switches_control (s : RecvState) (nid : NID)
    (h : nid.data_unit = DataUnit.VoiceLCTerminator ∨
         nid.data_unit = DataUnit.VoiceSimpleTerminator) :
    (handle_event s (MessageEvent.PacketNID nid)).1.curfreq = s.ctlfreq ∧
    countEndTx (handle_event s (MessageEvent.PacketNID nid)).2 = 1 ∧
    (∀ t : RecvState, ∀ v : Nat,
      handle_event t (MessageEvent.VoiceTerm v) = (t, [])) := by
  rcases h with h | h <;>
    refine ⟨?_, ?_, fun t v => rfl⟩ <;>
      simp [handle_event, h, switch_control, set_freq, countEndTx, List.countP, List.countP.go]

/-- Witness for C4 (amended): a voice LC terminator NID in stateT retunes
to the control frequency with exactly one end-of-transmission event. -/
theorem terminator_switches_control_witness :
    (handle_event stateT (MessageEvent.PacketNID ⟨DataUnit.VoiceLCTerminator⟩)).1.curfreq =
        stateT.ctlfreq ∧
    countEndTx (handle_event stateT (MessageEvent.PacketNID ⟨DataUnit.VoiceLCTerminator⟩)).2 = 1 ∧
    (∀ t : RecvState, ∀ v : Nat,
      handle_event t (MessageEvent.VoiceTerm v) = (t, [])) :=
  terminator_switches_control stateT ⟨DataUnit.VoiceLCTerminator⟩ (Or.inl rfl)

/-- Talkgroup selection never touches the encrypted set. -/
theorem use_talkgroup_encrypted_eq (s : RecvState) (tg : TalkGroup) (ch : Channel) :
    (use_talkgroup s tg ch).1.encrypted = s.encrypted := by
  unfold use_talkgroup
  split
  · rfl
  · split
    · rfl
    · simp [set_freq]

/-- The first-match scan over a record's pairs never touches the encrypted
set. -/
theorem use_talkgroups_encrypted_eq (l : List (Channel × TalkGroup)) :
    ∀ s : RecvState, (use_talkgroups s l).1.encrypted = s.encrypted := by
  induction l with
  | nil => intro s; rfl
  | cons p rest ih =>
    intro s
    obtain ⟨ch, tg⟩ := p
    simp only [use_talkgroups]
    split
    · exact use_talkgroup_encrypted_eq s tg ch
    · rw [ih, use_talkgroup_encrypted_eq]

/-- Crypto handling only ever grows the encrypted set. -/
theorem handle_crypto_encrypted_subset (s : RecvState) (alg : CryptoAlgorithm) :
    s.encrypted ⊆ (handle_crypto s alg).1.encrypted := by
  cases alg with
  | Unencrypted => exact Finset.Subset.refl _
  | Other n =>
    cases hg : s.curgroup with
    | Default =>
      simp [handle_crypto, switch_control, set_freq, hg]
    | Other x =>
      simp only [handle_crypto, switch_control, set_freq, hg]
      exact Finset.subset_insert x s.encrypted

/-- Event dispatch only ever grows the encrypted set. -/
theorem handle_event_encrypted_subset (s : RecvState) (event : MessageEvent) :
    s.encrypted ⊆ (handle_event s event).1.encrypted := by
  cases event with
  | Error e => exact Finset.Subset.refl _
  | PacketNID nid =>
    cases h : nid.data_unit <;> simp [handle_event, h, switch_control, set_freq]
  | VoiceHeader alg => exact handle_crypto_encrypted_subset s alg
  | LinkControl lc =>
    cases h : lc.opcode <;> simp [handle_event, h]
  | CryptoControl alg => exact handle_crypto_encrypted_subset s alg
  | LowSpeedDataFragment d => exact Finset.Subset.refl _
  | VoiceFrame vf => exact Finset.Subset.refl _
  | TrunkingControl tsbk =>
    by_cases hm : tsbk.mfg = 0
    · by_cases hc : tsbk.crc_valid
      · cases ho : tsbk.opcode with
        | none => simp [handle_event, hm, hc, ho]
        | some op =>
          cases op <;>
            simp [handle_event, hm, hc, ho, use_talkgroups_encrypted_eq]
      · simp [handle_event, hm, hc]
    · simp [handle_event, hm]
  | VoiceTerm t => exact Finset.Subset.refl _

/-- One decoded sample only ever grows the encrypted set. -/
theorem handle_sample_encrypted_subset (s : RecvState) (d : Option MessageEvent) :
    s.encrypted ⊆ (handle_sample s d).1.encrypted := by
  cases d with
  | none => exact Finset.Subset.refl _
  | some event => exact handle_event_encrypted_subset s event

/-- A whole baseband buffer only ever grows the encrypted set. -/
theorem handle_samples_encrypted_subset (l : List (Option MessageEvent)) :
    ∀ s : RecvState, s.encrypted ⊆ (handle_samples s l).1.encrypted := by
  induction l with
  | nil => intro s; exact Finset.Subset.refl _
  | cons d rest ih =>
    intro s
    exact (handle_sample_encrypted_subset s d).trans (ih (handle_sample s d).1)

/-- Every inbound-queue event only ever grows the encrypted set. -/
theorem step_encrypted_subset (s : RecvState) (ev : RecvEvent) :
    s.encrypted ⊆ (step s ev).1.encrypted := by
  cases ev with
  | Baseband samples => exact handle_samples_encrypted_subset samples s
  | SetControlFreq freq =>
    simp [step, set_control_freq, switch_control, set_freq]

/-- Any run of the receive loop only ever grows the encrypted set. -/
theorem run_encrypted_subset (ins : List RecvEvent) :
    ∀ s : RecvState, s.encrypted ⊆ (run s ins).1.encrypted := by
  induction ins with
  | nil => intro s; exact Finset.Subset.refl _
  | cons ev rest ih =>
    intro s
    exact (step_encrypted_subset s ev).trans (ih (step s ev).1)

/-- Claim C5: the encrypted set is append-only — every inbound event maps
it to a superset — so once the numeric id x is in the set it is still in
the set in every later reachable state, and any channel-update pair
naming x fails selection there, changing nothing and emitting nothing. -/
theorem encrypted_append_only (s : RecvState) (ins : List RecvEvent)
    (x : Nat) (ch : Channel) (hx : x ∈ s.encrypted) :
    (∀ t : RecvState, ∀ ev : RecvEvent, t.encrypted ⊆ (step t ev).1.encrypted) ∧
    x ∈ (run s ins).1.encrypted ∧
    use_talkgroup (run s ins).1 (TalkGroup.Other x) ch = ((run s ins).1, [], false) := by
  have hx2 : x ∈ (run s ins).1.encrypted := run_encrypted_subset ins s hx
  refine ⟨step_encrypted_subset, hx2, ?_⟩
  simp [use_talkgroup, TalkGroup.blacklisted, hx2]

/-- Witness for C5: starting from the traffic state with talkgroup 9
blacklisted, after a run containing a crypto event and a channel-update,
9 is still blacklisted and a pair naming it fails with no state change. -/
theorem encrypted_append_only_witness :
    (∀ t : RecvState, ∀ ev : RecvEvent, t.encrypted ⊆ (step t ev).1.encrypted) ∧
    9 ∈ (run { stateT with encrypted := {9} }
          [RecvEvent.Baseband [some (MessageEvent.TrunkingControl tsbkW)],
           RecvEvent.SetControlFreq 771000000]).1.encrypted ∧
    use_talkgroup (run { stateT with encrypted := {9} }
        [RecvEvent.Baseband [some (MessageEvent.TrunkingControl tsbkW)],
         RecvEvent.SetControlFreq 771000000]).1 (TalkGroup.Other 9) ⟨3, 1⟩ =
      ((run { stateT with encrypted := {9} }
          [RecvEvent.Baseband [some (MessageEvent.TrunkingControl tsbkW)],
           RecvEvent.SetControlFreq 771000000]).1, [], false) :=
  encrypted_append_only { stateT with encrypted := {9} }
    [RecvEvent.Baseband [some (MessageEvent.TrunkingControl tsbkW)],
     RecvEvent.SetControlFreq 771000000] 9 ⟨3, 1⟩ (by decide)

/-- A concrete trunking record failing its integrity check. -/
def tsbkC : Tsbk :=
  { tsbkW with crc_valid := false }

/-- A concrete link-control record with an unrecognized opcode. -/
def lcN : LinkControlRec :=
  { opcode := none }

/-- Claim C6: protocol-level noise is a silent drop — decode errors,
vendor-specific trunking records, integrity-check failures, unrecognized
link-control or trunking opcodes, and selection attempts on a blacklisted
talkgroup or unresolvable channel all leave the state untouched and send
nothing. -/
theorem silent_drops (s : RecvState) (e : Nat) (tsbk : Tsbk)
    (lc : LinkControlRec) (tg : TalkGroup) (ch : Channel) :
    handle_event s (MessageEvent.Error e) = (s, []) ∧
    (tsbk.mfg ≠ 0 → handle_event s (MessageEvent.TrunkingControl tsbk) = (s, [])) ∧
    (tsbk.crc_valid = false →
      handle_event s (MessageEvent.TrunkingControl tsbk) = (s, [])) ∧
    (tsbk.opcode = none →
      handle_event s (MessageEvent.TrunkingControl tsbk) = (s, [])) ∧
    (lc.opcode = none → handle_event s (MessageEvent.LinkControl lc) = (s, [])) ∧
    (tg.blacklisted s.encrypted = true → use_talkgroup s tg ch = (s, [], false)) ∧
    (s.channels ch.id = none → use_talkgroup s tg ch = (s, [], false)) := by
  refine ⟨rfl, ?_, ?_, ?_, ?_, ?_, ?_⟩
  · intro h; simp [handle_event, h]
  · intro h
    by_cases hm : tsbk.mfg = 0 <;> simp [handle_event, hm, h]
  · intro h
    by_cases hm : tsbk.mfg = 0 <;>
      by_cases hc : tsbk.crc_valid <;>
        simp [handle_event, hm, hc, h]
  · intro h; simp [handle_event, h]
  · intro h; simp [use_talkgroup, h]
  · intro h
    by_cases hb : tg.blacklisted s.encrypted <;> simp [use_talkgroup, hb, h]

/-- Witness for C6: each noise category dropped silently at a concrete
input — decode error 3, vendor record tsbkV, integrity failure tsbkC,
unrecognized opcodes tsbkN and lcN, blacklisted talkgroup 9, and channel
id 4, which the map stateW.channels leaves unresolvable. -/
theorem silent_drops_witness :
    handle_event stateW (MessageEvent.Error 3) = (stateW, []) ∧
    handle_event stateW (MessageEvent.TrunkingControl tsbkV) = (stateW, []) ∧
    handle_event stateW (MessageEvent.TrunkingControl tsbkC) = (stateW, []) ∧
    handle_event stateW (MessageEvent.TrunkingControl tsbkN) = (stateW, []) ∧
    handle_event stateW (MessageEvent.LinkControl lcN) = (stateW, []) ∧
    use_talkgroup { stateT with encrypted := {9} } (TalkGroup.Other 9) ⟨3, 1⟩ =
      ({ stateT with encrypted := {9} }, [], false) ∧
    use_talkgroup stateW (TalkGroup.Other 9) ⟨4, 1⟩ = (stateW, [], false) :=
  ⟨(silent_drops stateW 3 tsbkV lcN TalkGroup.Default ⟨3, 1⟩).1,
   (silent_drops stateW 3 tsbkV lcN TalkGroup.Default ⟨3, 1⟩).2.1 (by decide),
   (silent_drops stateW 3 tsbkC lcN TalkGroup.Default ⟨3, 1⟩).2.2.1 rfl,
   (silent_drops stateW 3 tsbkN lcN TalkGroup.Default ⟨3, 1⟩).2.2.2.1 rfl,
   (silent_drops stateW 3 tsbkN lcN TalkGroup.Default ⟨3, 1⟩).2.2.2.2.1 rfl,
   (silent_drops { stateT with encrypted := {9} } 3 tsbkN lcN
      (TalkGroup.Other 9) ⟨3, 1⟩).2.2.2.2.2.1 (by decide),
   (silent_drops stateW 3 tsbkN lcN (TalkGroup.Other 9) ⟨4, 1⟩).2.2.2.2.2.2 rfl⟩

/-- Running the audio task over a concatenation processes the two parts in
sequence. -/
theorem audio_run_append {M : ImbeModel} (l1 l2 : List AudioEvent) :
    ∀ a : AudioOutput M,
      AudioTask.run a (l1 ++ l2) = AudioTask.run (AudioTask.run a l1) l2 := by
  induction l1 with
  | nil => intro a; rfl
  | cons e rest ih => intro a; simp [AudioTask.run, ih]

/-- The per-frame sample blocks a decoder state yields over a frame list:
one scaled block per frame, threading the decoder state. -/
def decodeRun (M : ImbeModel) : M.Dec → List VoiceFrame → List (List ℚ)
  | _, [] => []
  | d, vf :: rest =>
    (M.decode d vf).2.map (fun q => q / 8192) ::
      decodeRun M (M.decode d vf).1 rest

/-- Playing a list of voice frames appends exactly the per-frame blocks
determined by the decoder state at entry. -/
theorem audio_run_frames {M : ImbeModel} (fs : List VoiceFrame) :
    ∀ a : AudioOutput M,
      (AudioTask.run a (fs.map AudioEvent.VoiceFrame)).written =
        a.written ++ decodeRun M a.imbe fs := by
  induction fs with
  | nil => intro a; simp [AudioTask.run, decodeRun]
  | cons vf rest ih =>
    intro a
    simp [AudioTask.run, AudioTask.step, AudioOutput.play, decodeRun, ih]

/-- Claim C7: an end-of-transmission between two voice-frame sequences
makes the second sequence produce exactly the per-frame output a freshly
constructed pipeline would produce on it alone, because the
end-of-transmission handler flushes the written output and replaces the
decoder instance with a newly constructed one. -/
theorem end_transmission_fresh_decoder (M : ImbeModel) (A B : List VoiceFrame) :
    (AudioTask.run (AudioOutput.new M)
        (A.map AudioEvent.VoiceFrame ++
          AudioEvent.EndTransmission :: B.map AudioEvent.VoiceFrame)).written =
      (AudioTask.run (AudioOutput.new M)
          (A.map AudioEvent.VoiceFrame ++ [AudioEvent.EndTransmission])).written ++
        (AudioTask.run (AudioOutput.new M) (B.map AudioEvent.VoiceFrame)).written ∧
    (∀ a : AudioOutput M,
      AudioTask.step a AudioEvent.EndTransmission =
        { written := a.written, flushed := a.written.length, imbe := M.init }) := by
  constructor
  · have hmid : (AudioTask.run (AudioOutput.new M)
        (A.map AudioEvent.VoiceFrame ++ [AudioEvent.EndTransmission])).imbe = M.init := by
      rw [audio_run_append]
      rfl
    have hsplit : A.map AudioEvent.VoiceFrame ++
          AudioEvent.EndTransmission :: B.map AudioEvent.VoiceFrame =
        (A.map AudioEvent.VoiceFrame ++ [AudioEvent.EndTransmission]) ++
          B.map AudioEvent.VoiceFrame := by
      simp
    rw [hsplit, audio_run_append, audio_run_frames, audio_run_frames, hmid]
    simp [AudioOutput.new]
  · intro a; rfl

/-- Counterexample to claim C8: construction with control frequency
851000000 emits a nonzero number of voice events to the Audio Render
Pipeline (namely the end-of-transmission of the initial switch-to-control),
not none. -/
theorem new_emits_a_voice_event :
    countAudioEvents (RecvTask.new 851000000).2 ≠ 0 := by
  decide

/-- Claim C8 (amended): construction with control frequency F0 emits
exactly this trace — a control-frequency report, one end-of-transmission
voice event, one current-frequency report for F0, one tuner command for
F0, and a resynchronization — so no voice-frame events but exactly one
end-of-transmission, and both stored frequencies end at F0. -/
theorem new_initial_trace (freq : Nat) :
    (RecvTask.new freq).2 =
      [Out.hub (HubEvent.UpdateCtlFreq freq),
       Out.audio AudioEvent.EndTransmission,
       Out.hub (HubEvent.UpdateCurFreq freq),
       Out.sdrSetFreq freq, Out.resync] ∧
    countVoiceFrames (RecvTask.new freq).2 = 0 ∧
    countEndTx (RecvTask.new freq).2 = 1 ∧
    (RecvTask.new freq).1.ctlfreq = freq ∧
    (RecvTask.new freq).1.curfreq = freq :=
  ⟨rfl, rfl, rfl, rfl, rfl⟩

/-- Claim C10: switch-to-control and retune never modify the current
talkgroup, and therefore the id that crypto handling inserts into the
encrypted set is the talkgroup that was current when the crypto event was
observed, even though the insertion happens after the switch back to the
control channel. -/
theorem switch_preserves_talkgroup (s : RecvState) (alg : CryptoAlgorithm)
    (x : Nat) (hne : alg ≠ CryptoAlgorithm.Unencrypted)
    (hg : s.curgroup = TalkGroup.Other x) :
    (∀ t : RecvState, (switch_control t).1.curgroup = t.curgroup) ∧
    (∀ t : RecvState, ∀ f : Nat, (set_freq t f).1.curgroup = t.curgroup) ∧
    (handle_crypto s alg).1.encrypted = insert x s.encrypted := by
  refine ⟨fun t => rfl, fun t f => rfl, ?_⟩
  cases alg with
  | Unencrypted => exact absurd rfl hne
  | Other n => simp [handle_crypto, switch_control, set_freq, hg]

/-- Witness for C10: in stateT (current talkgroup 9), crypto algorithm 129
inserts exactly 9 — the pre-switch current talkgroup — into the encrypted
set, while switch-to-control and retune leave every state's talkgroup
unchanged. -/
theorem switch_preserves_talkgroup_witness :
    (∀ t : RecvState, (switch_control t).1.curgroup = t.curgroup) ∧
    (∀ t : RecvState, ∀ f : Nat, (set_freq t f).1.curgroup = t.curgroup) ∧
    (handle_crypto stateT (CryptoAlgorithm.Other 129)).1.encrypted =
      insert 9 stateT.encrypted :=
  switch_preserves_talkgroup stateT (CryptoAlgorithm.Other 129) 9 (by decide) rfl

end P25rx
